import Mathlib

/-!
Verification of the path-to-content resolution and view-scope assembly
logic of the devsummit site host (src/host.js).

Modelling conventions:
* JS strings are modelled as lists of characters (`Str`).
* The schedule dataset maps (JS objects used as string-keyed maps) are
  modelled as association lists; `jsGet` is JS property lookup (first
  binding wins, `none` when the key is absent).
* A stored value in the dataset can be a truthy record (`Stored.entity`)
  or any falsy value such as null or 0 (`Stored.falsy`), so that the
  truthiness tests of the source (`if (!data)`) are modelled faithfully.
* External collaborators are modelled as opaque inputs carried by `Env`:
  the Less compiler output (`lessCss`, deterministic for the fixed
  amp.less source), the prebuilt production stylesheet read at startup
  (`prodAmpCss`, `none` when the read failed), the policy-header string
  (`policyHeader`), and the section list derived from the template
  directory (`sectionsList`).  The derived day list (external
  ./deps/calendar.js) and the fixed links sub-object carry no logic used
  by any property below; the two link URLs are kept as scope fields.
* `await`ed calls resolve synchronously from the caller's point of view,
  so the handler is a pure function from its inputs and the mutable
  fallback-cache slot to a result and an updated slot.
-/

/-- JS strings are modelled as lists of characters. -/
abbrev Str : Type := List Char

/-- A session or speaker record: the fields read by host.js.  A field is
`none` when absent from the record (JS `undefined`). -/
structure Entity where
  name : Option Str
  time_label : Option Str
  description : Option Str
  youtube_id : Option Str
deriving DecidableEq

/-- A value stored in a dataset map: either a truthy record or some falsy
value (null, 0, empty string ...), which `if (!data)` treats like an
absent key. -/
inductive Stored where
  | falsy : Stored
  | entity : Entity → Stored
deriving DecidableEq

/-- The schedule dataset from schedule.json: `sessions` and `speakers`
maps, modelled as association lists. -/
structure Schedule where
  sessions : List (Str × Stored)
  speakers : List (Str × Stored)
deriving DecidableEq

/-- JS property lookup on a string-keyed object: the first binding for the
key, `none` (JS `undefined`) when the key is absent. -/
def jsGet (m : List (Str × Stored)) (k : Str) : Option Stored :=
  match m with
  | [] => none
  | (k2, v) :: rest => if k2 = k then some v else jsGet rest k

/-- Lookup that succeeds only on a truthy stored record: models
`data = map[rest]` followed by the `!data` truthiness test. -/
def truthyGet (m : List (Str × Stored)) (k : Str) : Option Entity :=
  match jsGet m k with
  | some (Stored.entity e) => some e
  | _ => none

/-- Removes every binding of a key from a map (used to state that a falsy
stored value behaves exactly like an absent key). -/
def eraseKey (k : Str) (m : List (Str × Stored)) : List (Str × Stored) :=
  m.filter (fun p => p.1 != k)

/-- Does the string start with an underscore (`rest.startsWith('_')`,
also the `ch !== '_'` test on `section[0]`)? -/
def startsWithUnderscore (s : Str) : Bool :=
  match s with
  | [] => false
  | c :: _ => c == '_'

/-- Does the string start with a dot (`ch !== '.'` on `section[0]`)? -/
def startsWithDot (s : Str) : Bool :=
  match s with
  | [] => false
  | c :: _ => c == '.'

/-- JS `s.endsWith(pat)`. -/
def endsWith (s pat : Str) : Bool :=
  s.drop (s.length - pat.length) == pat

/-- JS `x || ''` for a string-or-absent value: the string when present,
the empty string when absent (an absent and an empty string both yield
the empty string, exactly as in JS). -/
def jsOrEmpty (v : Option Str) : Str :=
  v.getD []

/-- JS `x || false` for a string-or-absent value: `none` models `false`;
a present empty string is falsy and also yields `false`. -/
def jsOrFalse (v : Option Str) : Option Str :=
  match v with
  | some s => if s = [] then none else some s
  | none => none

/-- One view-template directory entry, as the `sections` derivation maps
it: `.html` files not starting with an underscore or a dot become a
section (the name without the extension, `index` becoming the empty
string); everything else is dropped. -/
def sectionOf (file : Str) : Option Str :=
  if endsWith file (".html".toList) && !startsWithUnderscore file && !startsWithDot file then
    some (if file.take (file.length - 5) = "index".toList then []
          else file.take (file.length - 5))
  else none

/-- The Section List derived from a view-template directory listing. -/
def sectionsOf (files : List Str) : List Str :=
  files.filterMap sectionOf

/-- Does `pat` occur in `o` at position `i` (an honest occurrence, lying
entirely inside `o`)? -/
def occursAt (o pat : Str) (i : Nat) : Bool :=
  decide (i + pat.length ≤ o.length) && ((o.drop i).take pat.length == pat)

/-- Largest occurrence position of `pat` in `o` that is at most `n`,
searching downwards as JS `lastIndexOf` does. -/
def lastIndexOfFrom (o pat : Str) : Nat → Option Nat
  | 0 => if occursAt o pat 0 then some 0 else none
  | n + 1 => if occursAt o pat (n + 1) then some (n + 1) else lastIndexOfFrom o pat n

/-- JS `o.lastIndexOf(pat)`: the largest occurrence position, `none` for
-1 (not found). -/
def lastIndexOf (o pat : Str) : Option Nat :=
  lastIndexOfFrom o pat o.length

/-- The request context fields host.js reads: `ctx.path`,
`ctx.originalUrl` (absent when undefined), `ctx.url`,
`ctx.req.headers.host`, and the `path` / `rest` arguments supplied by the
external flat router (`rest = []` models an absent or empty, hence falsy,
rest segment). -/
structure Ctx where
  path : Str
  originalUrl : Option Str
  url : Str
  host : Str
  flatPath : Str
  flatRest : Str
deriving DecidableEq

/-- mountUrl from host.js: the prefix of `originalUrl` before the last
occurrence of `url`; empty when `originalUrl` is undefined or `url` does
not occur. -/
def mountUrl (originalUrl : Option Str) (url : Str) : Str :=
  match originalUrl with
  | none => []
  | some o =>
    match lastIndexOf o url with
    | none => []
    | some i => o.take i

/-- Process-wide inputs fixed at startup. -/
structure Env where
  isProd : Bool
  sectionsList : List Str
  schedule : Schedule
  prodAmpCss : Option Str
  lessCss : Str
  policyHeader : Str
deriving DecidableEq

/-- `sourcePrefix` from host.js: `res` in production, `src` otherwise. -/
def sourceDirOf (env : Env) : Str :=
  if env.isProd then "res".toList else "src".toList

/-- The `sitePrefix` computed per request: scheme, host header and mount
path. -/
def sitePrefixOf (env : Env) (ctx : Ctx) : Str :=
  (if env.isProd then "https://".toList else "http://".toList) ++
    ctx.host ++ mountUrl ctx.originalUrl ctx.url

/-- Result of one evaluation of the AMP-CSS step (`prodAmpCss ||
fallbackProdAmpCss`, compile on `undefined`): the stylesheet string, the
new value of the `fallbackProdAmpCss` slot, and whether the Less
preprocessor was invoked. -/
structure CssResult where
  css : Str
  slot : Option Str
  compiled : Bool
deriving DecidableEq

/-- The AMP-CSS step of host.js, with `slot` the current value of the
mutable `fallbackProdAmpCss` variable. -/
def computeAmpCss (env : Env) (slot : Option Str) : CssResult :=
  match env.prodAmpCss with
  | some c => ⟨c, slot, false⟩
  | none =>
    match slot with
    | some c => ⟨c, slot, false⟩
    | none =>
      let c := env.lessCss
      ⟨c, if env.isProd then some c else none, true⟩

/-- Result of the entity lookup inside the flat handler: the `data`,
`path` and `bodyClass` variables after the two lookups. -/
structure Resolved where
  data : Option Entity
  tpl : Str
  bodyClass : Str
deriving DecidableEq

/-- The entity lookup of the flat handler: sessions first (template
`_amp-session`, body class `schedule-popup`), speakers second (template
`_amp-speaker`, body class `speaker-popup`). -/
def resolveEntity (sched : Schedule) (rest : Str) : Resolved :=
  match truthyGet sched.sessions rest with
  | some e => ⟨some e, "_amp-session".toList, "schedule-popup".toList⟩
  | none =>
    match truthyGet sched.speakers rest with
    | some e => ⟨some e, "_amp-speaker".toList, "speaker-popup".toList⟩
    | none => ⟨none, "_amp-speaker".toList, "speaker-popup".toList⟩

/-- The view scope handed to the template renderer.  The derived day list
(external calendar module) is omitted; the fixed links object is kept as
its two URL fields.  Fields that host.js only sets on the entity branch
are `Option`s that are `none` in the base scope. -/
structure Scope where
  year : Nat
  eventNo : Nat
  dateString : Str
  prod : Bool
  base : Str
  layout : Str
  ua : Str
  conversion : Nat
  canonicalUrl : Str
  path : Str
  sourceDir : Str
  stage : Str
  interestForm : Str
  livestreamForm : Str
  id : Option Str
  bodyClass : Option Str
  sitePre : Option Str
  title : Option Str
  time_label : Option Str
  description : Option Str
  youtube_id : Option Str
  payload : Option Entity
  styles : Option Str
deriving DecidableEq

/-- The scope literal built for every resolvable request (host.js lines
148-167), before the entity branch. -/
def baseScope (env : Env) (ctx : Ctx) (path : Str) : Scope :=
  { year := 2019
  , eventNo := 2019 - 2012
  , dateString := "11—12 November 2019".toList
  , prod := env.isProd
  , base := mountUrl ctx.originalUrl ctx.url
  , layout := "devsummit".toList
  , ua := "UA-41980257-1".toList
  , conversion := 935743779
  , canonicalUrl := sitePrefixOf env ctx ++ "/".toList ++ path
  , path := path
  , sourceDir := sourceDirOf env
  , stage := "announce".toList
  , interestForm := "https://docs.google.com/forms/d/e/1FAIpQLSdqEfT0jfgRNIGqibWxBe8X1Dt0a2FcHdituhRhG1tNGL1sBQ/viewform".toList
  , livestreamForm := "https://goo.gl/forms/738tmXWSbEdIWHf63".toList
  , id := none
  , bodyClass := none
  , sitePre := none
  , title := none
  , time_label := none
  , description := none
  , youtube_id := none
  , payload := none
  , styles := none }

/-- The scope after the entity branch of the flat handler (host.js lines
170, 202-211). -/
def entityScope (env : Env) (ctx : Ctx) (path rest : Str) (e : Entity)
    (bc : Str) (css : Str) : Scope :=
  let s := baseScope env ctx path
  { s with
    canonicalUrl := s.canonicalUrl ++ "/".toList ++ rest
  , layout := "amp".toList
  , id := some rest
  , bodyClass := some bc
  , sitePre := some (sitePrefixOf env ctx)
  , title := some (jsOrEmpty e.name)
  , time_label := some (jsOrEmpty e.time_label)
  , description := some (jsOrEmpty e.description)
  , youtube_id := jsOrFalse e.youtube_id
  , payload := some e
  , styles := some css }

/-- What the flat handler does with a request: pass to the next handler
(carrying the value of the fallback-cache slot, which it never changes on
that path), or render a template with a scope.  `headerSet` records
whether the Feature-Policy header was set before the render; `slot` is
the fallback-cache slot after the call and `compiled` whether the Less
preprocessor ran. -/
inductive HandlerResult where
  | next : Option Str → HandlerResult
  | render : Str → Scope → Bool → Option Str → Bool → HandlerResult
deriving DecidableEq

/-- The `if (rest)` branch of the flat handler (host.js lines 169-211):
entity lookup, the underscore guard, the AMP-CSS step and the scope
overrides.  The `data` / `path` / `bodyClass` variable mutations of the
source are the `Resolved` triple. -/
def entityBranch (env : Env) (ctx : Ctx) (path rest : Str)
    (slot : Option Str) : HandlerResult :=
  match (resolveEntity env.schedule rest).data with
  | none => HandlerResult.next slot
  | some e =>
    if startsWithUnderscore rest then HandlerResult.next slot
    else
      HandlerResult.render (resolveEntity env.schedule rest).tpl
        (entityScope env ctx path rest e (resolveEntity env.schedule rest).bodyClass
          (computeAmpCss env slot).css)
        true (computeAmpCss env slot).slot (computeAmpCss env slot).compiled

/-- The flat middleware handler of host.js (lines 135-216), as a pure
function of the startup environment, the request context, the router's
`path` and `rest`, and the fallback-cache slot. -/
def flatHandler (env : Env) (ctx : Ctx) (path rest : Str)
    (slot : Option Str) : HandlerResult :=
  if path ∈ env.sectionsList then
    if rest ≠ [] then entityBranch env ctx path rest slot
    else
      HandlerResult.render (if path = [] then "index".toList else path)
        (baseScope env ctx path) true slot false
  else HandlerResult.next slot

/-- What the whole middleware chain does with a request.  `sent` is a
file served outside templating; `rendered` is a templated response with
its template name, whether the Feature-Policy header was set, a forced
content type if any, the flat scope when one was built, the
fallback-cache slot after the call, and whether the Less preprocessor
ran.  `passed` means every middleware declined. -/
inductive Outcome where
  | passed : Outcome
  | sent : Str → Outcome
  | rendered : Str → Bool → Option Str → Option Scope → Option Str → Bool → Outcome
deriving DecidableEq

/-- The ordered middleware chain of host.js: sw.js, schedule.json, the
verification file, sitemap.xml, then the flat handler.  The static-asset
mounts and the template-engine registration are external collaborators
with no routing logic of their own.  Note that the sitemap branch renders
without setting the Feature-Policy header. -/
def dispatch (env : Env) (ctx : Ctx) (slot : Option Str) : Outcome :=
  if ctx.path = "/sw.js".toList then
    Outcome.sent (sourceDirOf env ++ "/sw.js".toList)
  else if ctx.path = "/schedule.json".toList then
    Outcome.sent ("schedule.json".toList)
  else if ctx.path = "/googlec6dfdf23945d0d0c.html".toList then
    Outcome.sent ("googlec6dfdf23945d0d0c.html".toList)
  else if ctx.path = "/sitemap.xml".toList then
    Outcome.rendered ("_sitemap".toList) false (some ("text/xml".toList)) none slot false
  else
    match flatHandler env ctx ctx.flatPath ctx.flatRest slot with
    | HandlerResult.next _ => Outcome.passed
    | HandlerResult.render tpl sc h slot2 c =>
      Outcome.rendered tpl h none (some sc) slot2 c

/-! ### Concrete instances used to exercise the theorems -/

/-- The session record of the spec's example dataset. -/
def talkEntity : Entity := ⟨some ("Talk".toList), none, none, none⟩

/-- A speaker record sharing the id 42 with `talkEntity`. -/
def spkEntity : Entity := ⟨some ("Spk".toList), none, none, none⟩

/-- The spec's example dataset: sessions has 42, speakers is empty. -/
def cSched : Schedule := ⟨[("42".toList, Stored.entity talkEntity)], []⟩

/-- A dataset where the id 42 is present in both maps. -/
def bSched : Schedule :=
  ⟨[("42".toList, Stored.entity talkEntity)], [("42".toList, Stored.entity spkEntity)]⟩

/-- A dataset whose sessions map stores a falsy value under an id. -/
def fSched : Schedule := ⟨[("f".toList, Stored.falsy)], []⟩

/-- A dataset with an underscore-prefixed id in both maps. -/
def uSched : Schedule :=
  ⟨[("_x".toList, Stored.entity talkEntity)], [("_x".toList, Stored.entity spkEntity)]⟩

/-- A non-production environment over the example dataset, with keynote a
valid section. -/
def cEnv : Env := ⟨false, ["keynote".toList], cSched, none, "ampcss".toList, "pol".toList⟩

/-- The same environment over the id-in-both-maps dataset. -/
def bEnv : Env := ⟨false, ["keynote".toList], bSched, none, "ampcss".toList, "pol".toList⟩

/-- The same environment over the falsy-stored dataset. -/
def fEnv : Env := ⟨false, ["keynote".toList], fSched, none, "ampcss".toList, "pol".toList⟩

/-- The same environment over the underscore-id dataset. -/
def uEnv : Env := ⟨false, ["keynote".toList], uSched, none, "ampcss".toList, "pol".toList⟩

/-- A production environment with no preloaded stylesheet. -/
def pEnv : Env := ⟨true, ["keynote".toList], cSched, none, "ampcss".toList, "pol".toList⟩

/-- A concrete request context for the keynote/42 popup. -/
def cCtx : Ctx :=
  ⟨"/keynote/42".toList, some ("/keynote/42".toList), "/keynote/42".toList,
    "example.com".toList, "keynote".toList, "42".toList⟩

/-- A concrete request context for /sitemap.xml. -/
def smCtx : Ctx :=
  ⟨"/sitemap.xml".toList, some ("/sitemap.xml".toList), "/sitemap.xml".toList,
    "example.com".toList, [], []⟩

/-! ### Correctness of the lastIndexOf model -/

theorem occursAt_iff (o pat : Str) (i : Nat) :
    occursAt o pat i = true ↔
      i + pat.length ≤ o.length ∧ (o.drop i).take pat.length = pat := by
  simp [occursAt]

theorem lastIndexOfFrom_some (o pat : Str) :
    ∀ n i, lastIndexOfFrom o pat n = some i →
      occursAt o pat i = true ∧ i ≤ n ∧
        ∀ j, j ≤ n → occursAt o pat j = true → j ≤ i := by
  intro n
  induction n with
  | zero =>
    intro i h
    unfold lastIndexOfFrom at h
    split at h
    · cases h
      exact ⟨by assumption, Nat.le_refl 0, fun j hj _ => hj⟩
    · cases h
  | succ n ih =>
    intro i h
    unfold lastIndexOfFrom at h
    split at h
    next hocc =>
      cases h
      exact ⟨hocc, Nat.le_refl _, fun j hj _ => hj⟩
    next hocc =>
      obtain ⟨h1, h2, h3⟩ := ih i h
      refine ⟨h1, Nat.le_succ_of_le h2, ?_⟩
      intro j hj hoj
      rcases Nat.lt_or_ge j (n + 1) with hlt | hge
      · exact h3 j (Nat.lt_succ_iff.mp hlt) hoj
      · have : j = n + 1 := Nat.le_antisymm hj hge
        rw [this] at hoj
        exact absurd hoj hocc

theorem lastIndexOfFrom_none (o pat : Str) :
    ∀ n, lastIndexOfFrom o pat n = none →
      ∀ j, j ≤ n → occursAt o pat j = false := by
  intro n
  induction n with
  | zero =>
    intro h j hj
    unfold lastIndexOfFrom at h
    split at h
    · cases h
    next hocc =>
      have : j = 0 := Nat.le_zero.mp hj
      rw [this]
      exact Bool.not_eq_true _ ▸ Bool.of_not_eq_true hocc
  | succ n ih =>
    intro h j hj
    unfold lastIndexOfFrom at h
    split at h
    · cases h
    next hocc =>
      rcases Nat.lt_or_ge j (n + 1) with hlt | hge
      · exact ih h j (Nat.lt_succ_iff.mp hlt)
      · have : j = n + 1 := Nat.le_antisymm hj hge
        rw [this]
        exact Bool.of_not_eq_true hocc

theorem isInfix_iff_occursAt (o pat : Str) :
    pat <:+: o ↔ ∃ i, occursAt o pat i = true := by
  constructor
  · rintro ⟨s, t, rfl⟩
    refine ⟨s.length, (occursAt_iff _ _ _).mpr ⟨?_, ?_⟩⟩
    · simp [List.length_append]
    · rw [List.append_assoc, List.drop_left, List.take_left]
  · rintro ⟨i, hi⟩
    obtain ⟨hlen, htake⟩ := (occursAt_iff o pat i).mp hi
    refine ⟨o.take i, (o.drop i).drop pat.length, ?_⟩
    calc o.take i ++ pat ++ (o.drop i).drop pat.length
        = o.take i ++ ((o.drop i).take pat.length ++ (o.drop i).drop pat.length) := by
          rw [htake, List.append_assoc]
      _ = o.take i ++ o.drop i := by rw [List.take_append_drop]
      _ = o := List.take_append_drop i o

theorem lastIndexOf_none_iff (o pat : Str) :
    lastIndexOf o pat = none ↔ ¬ pat <:+: o := by
  constructor
  · intro h
    rw [isInfix_iff_occursAt]
    rintro ⟨i, hi⟩
    have hb : i ≤ o.length := by
      have := ((occursAt_iff o pat i).mp hi).1
      omega
    have := lastIndexOfFrom_none o pat o.length h i hb
    rw [this] at hi
    cases hi
  · intro h
    cases hc : lastIndexOf o pat with
    | none => rfl
    | some i =>
      exact absurd ((isInfix_iff_occursAt o pat).mpr
        ⟨i, (lastIndexOfFrom_some o pat o.length i hc).1⟩) h

/-- C6: mountUrl returns the empty string when originalUrl is undefined;
returns the empty string when the inner url is not a substring of
originalUrl; and otherwise returns the prefix of originalUrl up to and
excluding the last occurrence of the inner url (the position returned by
lastIndexOf is an occurrence, and no occurrence lies to its right). -/
theorem mountUrl_spec (url o : Str) :
    mountUrl none url = []
    ∧ (¬ url <:+: o → mountUrl (some o) url = [])
    ∧ (∀ i, lastIndexOf o url = some i →
        mountUrl (some o) url = o.take i
        ∧ occursAt o url i = true
        ∧ ∀ j, occursAt o url j = true → j ≤ i) := by
  refine ⟨rfl, ?_, ?_⟩
  · intro hni
    simp only [mountUrl]
    rw [(lastIndexOf_none_iff o url).mpr hni]
  · intro i h
    refine ⟨?_, (lastIndexOfFrom_some o url o.length i h).1, ?_⟩
    · simp only [mountUrl]
      rw [h]
    · intro j hj
      have hb : j ≤ o.length := by
        have := ((occursAt_iff o url j).mp hj).1
        omega
      exact (lastIndexOfFrom_some o url o.length i h).2.2 j hb hj

/-- Witness for C6 at concrete inputs: an undefined originalUrl, a mounted
URL whose inner url occurs twice (the prefix before the last occurrence
is returned), and an originalUrl not containing the inner url. -/
theorem mountUrl_spec_witness :
    mountUrl none ("/a".toList) = []
    ∧ mountUrl (some ("/m/app/a".toList)) ("/a".toList) = "/m/app".toList
    ∧ mountUrl (some ("/zz".toList)) ("/a".toList) = [] := by
  refine ⟨(mountUrl_spec ("/a".toList) ("/zz".toList)).1, ?_,
    (mountUrl_spec ("/a".toList) ("/zz".toList)).2.1 (by decide)⟩
  have h := ((mountUrl_spec ("/a".toList) ("/m/app/a".toList)).2.2 6 (by decide)).1
  rw [h]
  decide

/-! ### AMP CSS cache -/

/-- C7: in production mode, a second evaluation of the AMP-CSS step,
fed the fallback slot left by the first, returns the same stylesheet
string and does not invoke the Less preprocessor. -/
theorem ampCss_second_call_cached (env : Env) (slot : Option Str)
    (h : env.isProd = true) :
    (computeAmpCss env (computeAmpCss env slot).slot).css = (computeAmpCss env slot).css
    ∧ (computeAmpCss env (computeAmpCss env slot).slot).compiled = false := by
  cases hp : env.prodAmpCss with
  | some c => simp [computeAmpCss, hp]
  | none =>
    cases slot with
    | some c => simp [computeAmpCss, hp]
    | none => simp [computeAmpCss, hp, h]

/-- Witness for C7: a production environment with an empty cache compiles
once, and the second call is served from the populated fallback slot. -/
theorem ampCss_second_call_cached_witness :
    pEnv.isProd = true
    ∧ (computeAmpCss pEnv (computeAmpCss pEnv none).slot).css = (computeAmpCss pEnv none).css
    ∧ (computeAmpCss pEnv (computeAmpCss pEnv none).slot).compiled = false :=
  ⟨rfl, ampCss_second_call_cached pEnv none rfl⟩

/-- C2 fails on the code: in non-production mode the first on-demand
compilation does not persist into the fallback slot (the write is guarded
by the production flag), so a second call compiles again. -/
theorem ampCss_nonprod_counterexample :
    (computeAmpCss cEnv none).compiled = true
    ∧ (computeAmpCss cEnv none).slot = none
    ∧ (computeAmpCss cEnv (computeAmpCss cEnv none).slot).compiled = true := by decide

/-- C2 (amended): the freshly compiled stylesheet is persisted into the
fallback slot only when running in production mode; in non-production
mode the slot is left unset, and a call that does not compile leaves the
slot unchanged. -/
theorem ampCss_persist_only_in_prod (env : Env) (slot : Option Str) :
    ((computeAmpCss env slot).compiled = true →
      (computeAmpCss env slot).slot =
        if env.isProd then some (computeAmpCss env slot).css else none)
    ∧ ((computeAmpCss env slot).compiled = false →
      (computeAmpCss env slot).slot = slot) := by
  cases hp : env.prodAmpCss with
  | some c => simp [computeAmpCss, hp]
  | none =>
    cases slot with
    | some c => simp [computeAmpCss, hp]
    | none => cases h : env.isProd <;> simp [computeAmpCss, hp, h]

/-- Witness for the amended C2: a compiling call in production persists
the result, and a cache-hit call in non-production leaves the slot
unchanged. -/
theorem ampCss_persist_only_in_prod_witness :
    (computeAmpCss pEnv none).compiled = true
    ∧ (computeAmpCss pEnv none).slot =
      (if pEnv.isProd then some (computeAmpCss pEnv none).css else none)
    ∧ (computeAmpCss cEnv (some ("c".toList))).compiled = false
    ∧ (computeAmpCss cEnv (some ("c".toList))).slot = some ("c".toList) :=
  ⟨by decide, (ampCss_persist_only_in_prod pEnv none).1 (by decide),
   by decide, (ampCss_persist_only_in_prod cEnv (some ("c".toList))).2 (by decide)⟩

/-! ### Path resolver -/

/-- C1: the entity lookup tries sessions first, so whenever the rest id
holds a truthy session record the resolution result is the session-popup
template with body class schedule-popup, whatever the speakers map holds;
and on a valid section path (for a non-reserved id) the handler renders
that template with the session record as payload. -/
theorem session_priority (env : Env) (ctx : Ctx) (path rest : Str)
    (slot : Option Str) (e : Entity)
    (hs : truthyGet env.schedule.sessions rest = some e) :
    resolveEntity env.schedule rest =
      ⟨some e, "_amp-session".toList, "schedule-popup".toList⟩
    ∧ (path ∈ env.sectionsList → rest ≠ [] → startsWithUnderscore rest = false →
        flatHandler env ctx path rest slot =
          HandlerResult.render ("_amp-session".toList)
            (entityScope env ctx path rest e ("schedule-popup".toList)
              (computeAmpCss env slot).css)
            true (computeAmpCss env slot).slot (computeAmpCss env slot).compiled) := by
  have h1 : resolveEntity env.schedule rest =
      ⟨some e, "_amp-session".toList, "schedule-popup".toList⟩ := by
    unfold resolveEntity
    rw [hs]
  refine ⟨h1, ?_⟩
  intro hp hr hu
  unfold flatHandler
  rw [if_pos hp, if_pos hr]
  unfold entityBranch
  rw [h1]
  simp [hu]

/-- Witness for C1: on the dataset where id 42 is in both maps the
session wins, and on the spec's example dataset the rendered scope has
the Talk payload and the schedule-popup body class. -/
theorem session_priority_witness :
    truthyGet bEnv.schedule.sessions ("42".toList) = some talkEntity
    ∧ truthyGet bEnv.schedule.speakers ("42".toList) = some spkEntity
    ∧ flatHandler bEnv cCtx ("keynote".toList) ("42".toList) none =
      HandlerResult.render ("_amp-session".toList)
        (entityScope bEnv cCtx ("keynote".toList) ("42".toList) talkEntity
          ("schedule-popup".toList) (computeAmpCss bEnv none).css)
        true (computeAmpCss bEnv none).slot (computeAmpCss bEnv none).compiled
    ∧ flatHandler cEnv cCtx ("keynote".toList) ("42".toList) none =
      HandlerResult.render ("_amp-session".toList)
        (entityScope cEnv cCtx ("keynote".toList) ("42".toList) talkEntity
          ("schedule-popup".toList) (computeAmpCss cEnv none).css)
        true (computeAmpCss cEnv none).slot (computeAmpCss cEnv none).compiled
    ∧ (entityScope cEnv cCtx ("keynote".toList) ("42".toList) talkEntity
        ("schedule-popup".toList) (computeAmpCss cEnv none).css).payload = some talkEntity
    ∧ talkEntity.name = some ("Talk".toList)
    ∧ (entityScope cEnv cCtx ("keynote".toList) ("42".toList) talkEntity
        ("schedule-popup".toList) (computeAmpCss cEnv none).css).bodyClass =
      some ("schedule-popup".toList) :=
  ⟨by decide, by decide,
   (session_priority bEnv cCtx ("keynote".toList) ("42".toList) none talkEntity
      (by decide)).2 (by decide) (by decide) (by decide),
   (session_priority cEnv cCtx ("keynote".toList) ("42".toList) none talkEntity
      (by decide)).2 (by decide) (by decide) (by decide),
   by decide, by decide, by decide⟩

/-- C4: a rest id starting with an underscore always makes the handler
decline, whatever the two maps hold. -/
theorem underscore_always_declines (env : Env) (ctx : Ctx) (path rest : Str)
    (slot : Option Str) (hu : startsWithUnderscore rest = true) :
    flatHandler env ctx path rest slot = HandlerResult.next slot := by
  unfold flatHandler
  by_cases hp : path ∈ env.sectionsList
  · rw [if_pos hp]
    have hr : rest ≠ [] := by
      cases rest with
      | nil => simp [startsWithUnderscore] at hu
      | cons c cs => simp
    rw [if_pos hr]
    unfold entityBranch
    cases hres : (resolveEntity env.schedule rest).data with
    | none => simp [hres]
    | some e => simp [hres, hu]
  · rw [if_neg hp]

/-- Witness for C4: the id _x is a truthy entry of both maps, yet the
handler passes through. -/
theorem underscore_always_declines_witness :
    startsWithUnderscore ("_x".toList) = true
    ∧ truthyGet uEnv.schedule.sessions ("_x".toList) = some talkEntity
    ∧ truthyGet uEnv.schedule.speakers ("_x".toList) = some spkEntity
    ∧ flatHandler uEnv cCtx ("keynote".toList) ("_x".toList) none =
      HandlerResult.next none :=
  ⟨by decide, by decide, by decide,
   underscore_always_declines uEnv cCtx ("keynote".toList) ("_x".toList) none (by decide)⟩

/-- C5: a path outside the Section List makes the handler decline, and so
does a rest id with no truthy record in either map; in both cases nothing
is rendered and no error is possible (the handler is a total function
into pass or render). -/
theorem resolver_declines (env : Env) (ctx : Ctx) (path rest : Str)
    (slot : Option Str) :
    (path ∉ env.sectionsList →
      flatHandler env ctx path rest slot = HandlerResult.next slot)
    ∧ (rest ≠ [] →
      truthyGet env.schedule.sessions rest = none →
      truthyGet env.schedule.speakers rest = none →
      flatHandler env ctx path rest slot = HandlerResult.next slot) := by
  constructor
  · intro hp
    unfold flatHandler
    rw [if_neg hp]
  · intro hr h1 h2
    unfold flatHandler
    by_cases hp : path ∈ env.sectionsList
    · rw [if_pos hp, if_pos hr]
      unfold entityBranch
      have hres : (resolveEntity env.schedule rest).data = none := by
        unfold resolveEntity
        rw [h1, h2]
      simp [hres]
    · rw [if_neg hp]

/-- Witness for C5: an unknown section declines, and so does the id 99,
absent from both maps of the example dataset. -/
theorem resolver_declines_witness :
    ("nope".toList ∉ cEnv.sectionsList)
    ∧ truthyGet cEnv.schedule.sessions ("99".toList) = none
    ∧ truthyGet cEnv.schedule.speakers ("99".toList) = none
    ∧ flatHandler cEnv cCtx ("nope".toList) [] none = HandlerResult.next none
    ∧ flatHandler cEnv cCtx ("keynote".toList) ("99".toList) none =
      HandlerResult.next none :=
  ⟨by decide, by decide, by decide,
   (resolver_declines cEnv cCtx ("nope".toList) [] none).1 (by decide),
   (resolver_declines cEnv cCtx ("keynote".toList) ("99".toList) none).2
     (by decide) (by decide) (by decide)⟩

/-- C9: when an entity resolves (valid section, non-empty non-reserved
rest id, truthy record), the handler renders the resolved template and
the scope overrides layout to the AMP layout, sets id, bodyClass and
sitePrefix, title / time_label / description to the entity field or the
empty string, youtube_id to the entity field or false, payload to the
full record, styles to the resolved stylesheet, and extends the canonical
URL with the rest segment. -/
theorem entity_scope_overrides (env : Env) (ctx : Ctx) (path rest : Str)
    (slot : Option Str) (e : Entity) (tpl bc : Str)
    (hp : path ∈ env.sectionsList) (hr : rest ≠ [])
    (hu : startsWithUnderscore rest = false)
    (hres : resolveEntity env.schedule rest = ⟨some e, tpl, bc⟩) :
    flatHandler env ctx path rest slot =
      HandlerResult.render tpl
        (entityScope env ctx path rest e bc (computeAmpCss env slot).css)
        true (computeAmpCss env slot).slot (computeAmpCss env slot).compiled
    ∧ (entityScope env ctx path rest e bc (computeAmpCss env slot).css).layout
        = "amp".toList
    ∧ (entityScope env ctx path rest e bc (computeAmpCss env slot).css).id
        = some rest
    ∧ (entityScope env ctx path rest e bc (computeAmpCss env slot).css).bodyClass
        = some bc
    ∧ (entityScope env ctx path rest e bc (computeAmpCss env slot).css).sitePre
        = some (sitePrefixOf env ctx)
    ∧ (entityScope env ctx path rest e bc (computeAmpCss env slot).css).title
        = some (jsOrEmpty e.name)
    ∧ (entityScope env ctx path rest e bc (computeAmpCss env slot).css).time_label
        = some (jsOrEmpty e.time_label)
    ∧ (entityScope env ctx path rest e bc (computeAmpCss env slot).css).description
        = some (jsOrEmpty e.description)
    ∧ (entityScope env ctx path rest e bc (computeAmpCss env slot).css).youtube_id
        = jsOrFalse e.youtube_id
    ∧ (entityScope env ctx path rest e bc (computeAmpCss env slot).css).payload
        = some e
    ∧ (entityScope env ctx path rest e bc (computeAmpCss env slot).css).styles
        = some (computeAmpCss env slot).css
    ∧ (entityScope env ctx path rest e bc (computeAmpCss env slot).css).canonicalUrl
        = (baseScope env ctx path).canonicalUrl ++ "/".toList ++ rest := by
  refine ⟨?_, rfl, rfl, rfl, rfl, rfl, rfl, rfl, rfl, rfl, rfl, rfl⟩
  unfold flatHandler
  rw [if_pos hp, if_pos hr]
  unfold entityBranch
  rw [hres]
  simp [hu]

/-- Witness for C9 on the example dataset at keynote/42. -/
theorem entity_scope_overrides_witness :
    resolveEntity cEnv.schedule ("42".toList) =
      ⟨some talkEntity, "_amp-session".toList, "schedule-popup".toList⟩
    ∧ flatHandler cEnv cCtx ("keynote".toList) ("42".toList) none =
      HandlerResult.render ("_amp-session".toList)
        (entityScope cEnv cCtx ("keynote".toList) ("42".toList) talkEntity
          ("schedule-popup".toList) (computeAmpCss cEnv none).css)
        true (computeAmpCss cEnv none).slot (computeAmpCss cEnv none).compiled
    ∧ (entityScope cEnv cCtx ("keynote".toList) ("42".toList) talkEntity
        ("schedule-popup".toList) (computeAmpCss cEnv none).css).canonicalUrl
      = (baseScope cEnv cCtx ("keynote".toList)).canonicalUrl ++ "/".toList ++ "42".toList :=
  ⟨by decide,
   (entity_scope_overrides cEnv cCtx ("keynote".toList) ("42".toList) none talkEntity
      ("_amp-session".toList) ("schedule-popup".toList)
      (by decide) (by decide) (by decide) (by decide)).1,
   (entity_scope_overrides cEnv cCtx ("keynote".toList) ("42".toList) none talkEntity
      ("_amp-session".toList) ("schedule-popup".toList)
      (by decide) (by decide) (by decide) (by decide)).2.2.2.2.2.2.2.2.2.2.2⟩

theorem jsGet_eraseKey (k : Str) (m : List (Str × Stored)) :
    jsGet (eraseKey k m) k = none := by
  induction m with
  | nil => rfl
  | cons p rest ih =>
    rw [eraseKey, List.filter_cons]
    by_cases h : p.1 = k
    · simp only [h, bne_self_eq_false]
      exact ih
    · have hb : (p.1 != k) = true := bne_iff_ne.mpr h
      simp only [hb, if_pos]
      rw [jsGet]
      rw [if_neg h]
      exact ih

/-- C10: the entity lookup tests truthiness of the stored value, not key
membership: a falsy stored value under the rest id makes the sessions
lookup behave exactly as if the id were absent from the sessions map, and
when the speakers map holds no truthy value either, the handler
declines. -/
theorem falsy_behaves_as_absent (env : Env) (ctx : Ctx) (path rest : Str)
    (slot : Option Str)
    (hf : jsGet env.schedule.sessions rest = some Stored.falsy) :
    resolveEntity env.schedule rest =
      resolveEntity ⟨eraseKey rest env.schedule.sessions, env.schedule.speakers⟩ rest
    ∧ (rest ≠ [] → truthyGet env.schedule.speakers rest = none →
        flatHandler env ctx path rest slot = HandlerResult.next slot) := by
  have ht : truthyGet env.schedule.sessions rest = none := by
    unfold truthyGet
    rw [hf]
  have ht2 : truthyGet (eraseKey rest env.schedule.sessions) rest = none := by
    unfold truthyGet
    rw [jsGet_eraseKey]
  constructor
  · unfold resolveEntity
    rw [ht]
    rw [ht2]
  · intro hr hsp
    have hres : (resolveEntity env.schedule rest).data = none := by
      simp [resolveEntity, ht, hsp]
    unfold flatHandler
    by_cases hp : path ∈ env.sectionsList
    · rw [if_pos hp, if_pos hr]
      unfold entityBranch
      simp [hres]
    · rw [if_neg hp]

/-- Witness for C10: the id f is a key of the sessions map but stores a
falsy value, and the handler declines on it. -/
theorem falsy_behaves_as_absent_witness :
    jsGet fEnv.schedule.sessions ("f".toList) = some Stored.falsy
    ∧ resolveEntity fEnv.schedule ("f".toList) =
      resolveEntity ⟨eraseKey ("f".toList) fEnv.schedule.sessions, fEnv.schedule.speakers⟩
        ("f".toList)
    ∧ flatHandler fEnv cCtx ("keynote".toList) ("f".toList) none =
      HandlerResult.next none :=
  ⟨by decide,
   (falsy_behaves_as_absent fEnv cCtx ("keynote".toList) ("f".toList) none (by decide)).1,
   (falsy_behaves_as_absent fEnv cCtx ("keynote".toList) ("f".toList) none (by decide)).2
     (by decide) (by decide)⟩

/-! ### Feature-Policy header -/

/-- C3 fails on the code: the sitemap middleware produces a templated
response (template _sitemap, content type text/xml) without setting the
Feature-Policy header (the header flag of the outcome is false). -/
theorem feature_policy_counterexample :
    dispatch cEnv smCtx none =
      Outcome.rendered ("_sitemap".toList) false (some ("text/xml".toList))
        none none false := by decide

/-- C3 (amended): every templated response produced by the flat
section/entity middleware sets the Feature-Policy header before
rendering, for every request; the sitemap middleware's templated
response, however, is produced without setting the header. -/
theorem feature_policy_header (env : Env) (ctx : Ctx) (slot : Option Str) :
    (∀ path rest tpl sc h slot2 c,
      flatHandler env ctx path rest slot = HandlerResult.render tpl sc h slot2 c →
        h = true)
    ∧ (ctx.path = "/sitemap.xml".toList →
      dispatch env ctx slot =
        Outcome.rendered ("_sitemap".toList) false (some ("text/xml".toList))
          none slot false) := by
  constructor
  · intro path rest tpl sc h slot2 c hrend
    unfold flatHandler at hrend
    by_cases hp : path ∈ env.sectionsList
    · rw [if_pos hp] at hrend
      by_cases hr : rest ≠ []
      · rw [if_pos hr] at hrend
        unfold entityBranch at hrend
        cases hres : (resolveEntity env.schedule rest).data with
        | none =>
          simp only [hres] at hrend
          cases hrend
        | some e =>
          simp only [hres] at hrend
          by_cases hu : startsWithUnderscore rest
          · rw [if_pos hu] at hrend
            simp at hrend
          · rw [if_neg hu] at hrend
            cases hrend
            rfl
      · rw [if_neg hr] at hrend
        cases hrend
        rfl
    · rw [if_neg hp] at hrend
      cases hrend
  · intro hs
    unfold dispatch
    rw [hs, if_neg (by decide), if_neg (by decide), if_neg (by decide), if_pos rfl]

/-- Witness for the amended C3: a concrete sitemap request renders the
sitemap template without the header. -/
theorem feature_policy_header_witness :
    smCtx.path = "/sitemap.xml".toList
    ∧ dispatch cEnv smCtx none =
      Outcome.rendered ("_sitemap".toList) false (some ("text/xml".toList))
        none none false :=
  ⟨by decide, (feature_policy_header cEnv smCtx none).2 (by decide)⟩

/-! ### Section List -/

/-- C8: a directory entry starting with an underscore or a dot yields no
section; the index template yields the empty-string section; any other
included entry is its file name with the .html extension removed; and the
Section List holds exactly the images of the directory entries. -/
theorem sections_spec (files : List Str) (f s : Str) :
    (startsWithUnderscore f = true ∨ startsWithDot f = true → sectionOf f = none)
    ∧ sectionOf ("index.html".toList) = some []
    ∧ (sectionOf f = some s → f ≠ "index.html".toList →
        endsWith f (".html".toList) = true ∧ s = f.take (f.length - 5))
    ∧ (s ∈ sectionsOf files ↔ ∃ g, g ∈ files ∧ sectionOf g = some s) := by
  refine ⟨?_, by decide, ?_, ?_⟩
  · rintro (h | h) <;> simp [sectionOf, h]
  · intro hs hne
    unfold sectionOf at hs
    split at hs
    next hcond =>
      have hend : endsWith f (".html".toList) = true := by
        simp only [Bool.and_eq_true] at hcond
        exact hcond.1.1
      refine ⟨hend, ?_⟩
      have h5 : (".html".toList).length = 5 := by decide
      have hdrop : f.drop (f.length - 5) = ".html".toList := by
        have h2 := hend
        rw [endsWith, h5, beq_iff_eq] at h2
        exact h2
      by_cases hidx : f.take (f.length - 5) = "index".toList
      · exfalso
        apply hne
        calc f = f.take (f.length - 5) ++ f.drop (f.length - 5) :=
              (List.take_append_drop _ _).symm
          _ = "index".toList ++ ".html".toList := by rw [hidx, hdrop]
          _ = "index.html".toList := by decide
      · rw [if_neg hidx] at hs
        exact (Option.some_inj.mp hs).symm
    next => cases hs
  · simp [sectionsOf, List.mem_filterMap]

/-- Witness for C8 on a concrete directory listing. -/
theorem sections_spec_witness :
    sectionOf ("_layout.html".toList) = none
    ∧ sectionOf (".hidden.html".toList) = none
    ∧ sectionOf ("index.html".toList) = some []
    ∧ (endsWith ("schedule.html".toList) (".html".toList) = true
        ∧ "schedule".toList =
          ("schedule.html".toList).take (("schedule.html".toList).length - 5))
    ∧ "schedule".toList ∈
      sectionsOf ["index.html".toList, "_layout.html".toList, "schedule.html".toList] :=
  ⟨(sections_spec [] ("_layout.html".toList) []).1 (Or.inl (by decide)),
   (sections_spec [] (".hidden.html".toList) []).1 (Or.inr (by decide)),
   (sections_spec [] ("index.html".toList) []).2.1,
   (sections_spec [] ("schedule.html".toList) ("schedule".toList)).2.2.1
     (by decide) (by decide),
   (sections_spec ["index.html".toList, "_layout.html".toList, "schedule.html".toList]
      ("schedule.html".toList) ("schedule".toList)).2.2.2.mpr
     ⟨"schedule.html".toList, by decide, by decide⟩⟩
